import Mathlib

/-!
Shallow embedding of the slomux store engine (src/slomux.js) and of the
`connect` binding adapter, together with proofs about the claims of the
specification.

Modelling conventions:
* JS listener callbacks are identified by a `Nat` (the function reference's
  identity).  Two registrations of the same callback share the same `Nat`.
  The observable effect of invoking a callback is given by a behaviour table
  `beh : Nat → LAct` mapping each callback identity to what it does to the
  store when invoked (the same function reference always does the same thing).
* The closure variable `isSubscribed` of each `subscribe` call is modelled by
  recording, in the store, the set of subscription ids whose flag has been
  cleared (`unsubscribedSids`); fresh ids come from the counter `nextSid`.
* `listeners.forEach(listener => listener())` is modelled by `notifyLoop`,
  which follows the ECMAScript `Array.prototype.forEach` semantics exactly:
  the length is read once at the start (the fuel), the index `k` increases by
  one per step, and at each step the element *currently* at index `k` is
  invoked provided `k` is still inside the current array.
-/

/-- A subscription handle, as captured by the `unsubscribe` closure in
`subscribe`: the callback reference (`cb`) that `listeners.indexOf(listener)`
searches for, and the identity (`sid`) of the closure's `isSubscribed` flag. -/
structure Handle where
  cb : Nat
  sid : Nat
deriving DecidableEq, Repr

/-- The store of `createStore`: the current state, the `listeners` array
(callback identities in array order), the set of subscription ids whose
`isSubscribed` flag has been set to `false`, and the fresh-id counter. -/
structure Store (σ : Type) where
  currentState : σ
  listeners : List Nat
  unsubscribedSids : List Nat
  nextSid : Nat
deriving DecidableEq, Repr

/-- `createStore(reducer, initialState)`: state starts at `initialState`,
`listeners` starts empty.  The reducer is a closure parameter of the store in
the source; here it is passed explicitly to `dispatch`. -/
def createStore {σ : Type} (initialState : σ) : Store σ :=
  { currentState := initialState, listeners := [], unsubscribedSids := [], nextSid := 0 }

/-- `getState()` returns the current state reference. -/
def getState {σ : Type} (st : Store σ) : σ :=
  st.currentState

/-- `subscribe(listener)`: pushes the callback onto the `listeners` array,
allocates a fresh `isSubscribed` flag (initially set), and returns the
unsubscribe handle. -/
def subscribe {σ : Type} (st : Store σ) (cb : Nat) : Store σ × Handle :=
  ({ st with listeners := st.listeners ++ [cb], nextSid := st.nextSid + 1 },
   ⟨cb, st.nextSid⟩)

/-- JS `Array.prototype.indexOf`: index of the first occurrence of `x`, or
`-1` when `x` is absent. -/
def jsIndexOf (l : List Nat) (x : Nat) : Int :=
  if x ∈ l then (l.indexOf x : Int) else -1

/-- JS `Array.prototype.splice(start, 1)`: a negative `start` counts from the
end (clamped at 0), a `start` past the end removes nothing. -/
def jsSplice1 {α : Type} (l : List α) (start : Int) : List α :=
  let s : Nat := if start < 0 then ((l.length : Int) + start).toNat else min start.toNat l.length
  l.take s ++ l.drop (s + 1)

/-- The `unsubscribe` closure returned by `subscribe`: a no-op once its
`isSubscribed` flag is cleared; otherwise it clears the flag and splices out
the element at `listeners.indexOf(listener)`. -/
def unsubscribe {σ : Type} (st : Store σ) (h : Handle) : Store σ :=
  if h.sid ∈ st.unsubscribedSids then
    st
  else
    { st with
      unsubscribedSids := h.sid :: st.unsubscribedSids,
      listeners := jsSplice1 st.listeners (jsIndexOf st.listeners h.cb) }

/-- What a listener callback may do to the store when invoked: nothing, call
an unsubscribe handle, or subscribe a further callback. -/
inductive LAct where
  | none : LAct
  | unsub : Handle → LAct
  | sub : Nat → LAct
deriving DecidableEq, Repr

/-- Effect of one listener invocation on the store. -/
def applyLAct {σ : Type} (a : LAct) (st : Store σ) : Store σ :=
  match a with
  | LAct.none => st
  | LAct.unsub h => unsubscribe st h
  | LAct.sub c => (subscribe st c).1

/-- `listeners.forEach(listener => listener())` with ECMAScript semantics:
`n` is the remaining fuel (initially the array length captured at the start of
the pass), `k` the current index; at each step the element currently at `k`
is invoked if `k` is inside the current array.  Returns the final store and
the log of invoked callbacks, in invocation order. -/
def notifyLoop {σ : Type} (beh : Nat → LAct) :
    Nat → Nat → Store σ → List Nat → Store σ × List Nat
  | 0, _, st, log => (st, log)
  | Nat.succ n, k, st, log =>
    match st.listeners[k]? with
    | some cb => notifyLoop beh n (k + 1) (applyLAct (beh cb) st) (log ++ [cb])
    | Option.none => notifyLoop beh n (k + 1) st log

/-- `dispatch(action)`: replaces the state by `reducer(currentState, action)`,
then runs the notification pass over the listeners array.  Returns the store
after the pass together with the invocation log.  (Replacing the state leaves
the listeners array untouched, so the pass length may be read off `st`.) -/
def dispatch {σ α : Type} (reducer : σ → α → σ) (beh : Nat → LAct)
    (st : Store σ) (action : α) : Store σ × List Nat :=
  notifyLoop beh st.listeners.length 0
    { st with currentState := reducer st.currentState action } []

/-- Fold of `dispatch` over a sequence of actions (the stores' states along
the way are the per-dispatch observations). -/
def dispatchAll {σ α : Type} (reducer : σ → α → σ) (beh : Nat → LAct)
    (st : Store σ) (actions : List α) : Store σ :=
  actions.foldl (fun s a => (dispatch reducer beh s a).1) st

/-- Subscribing a list of callbacks in order (handles discarded). -/
def subscribeAll {σ : Type} (st : Store σ) (cbs : List Nat) : Store σ :=
  cbs.foldl (fun s c => (subscribe s c).1) st

/-- A store is well formed when every cleared subscription id is below the
fresh-id counter; every store reachable from `createStore` satisfies this. -/
def WF {σ : Type} (st : Store σ) : Prop :=
  ∀ s ∈ st.unsubscribedSids, s < st.nextSid

instance {σ : Type} (st : Store σ) : Decidable (WF st) := by
  unfold WF; infer_instance

theorem notifyLoop_succ_some {σ : Type} (beh : Nat → LAct) (n k : Nat) (st : Store σ)
    (log : List Nat) (cb : Nat) (hq : st.listeners[k]? = some cb) :
    notifyLoop beh (n + 1) k st log =
      notifyLoop beh n (k + 1) (applyLAct (beh cb) st) (log ++ [cb]) := by
  show (match st.listeners[k]? with
    | some cb => notifyLoop beh n (k + 1) (applyLAct (beh cb) st) (log ++ [cb])
    | Option.none => notifyLoop beh n (k + 1) st log) = _
  rw [hq]

theorem notifyLoop_succ_none {σ : Type} (beh : Nat → LAct) (n k : Nat) (st : Store σ)
    (log : List Nat) (hq : st.listeners[k]? = Option.none) :
    notifyLoop beh (n + 1) k st log = notifyLoop beh n (k + 1) st log := by
  show (match st.listeners[k]? with
    | some cb => notifyLoop beh n (k + 1) (applyLAct (beh cb) st) (log ++ [cb])
    | Option.none => notifyLoop beh n (k + 1) st log) = _
  rw [hq]

theorem applyLAct_currentState {σ : Type} (a : LAct) (st : Store σ) :
    (applyLAct a st).currentState = st.currentState := by
  cases a with
  | none => rfl
  | unsub h =>
    simp only [applyLAct, unsubscribe]
    split <;> rfl
  | sub c => rfl

theorem notifyLoop_currentState {σ : Type} (beh : Nat → LAct) :
    ∀ (n k : Nat) (st : Store σ) (log : List Nat),
      (notifyLoop beh n k st log).1.currentState = st.currentState := by
  intro n
  induction n with
  | zero => intro k st log; rfl
  | succ n ih =>
    intro k st log
    cases hq : st.listeners[k]? with
    | none =>
      rw [notifyLoop_succ_none beh n k st log hq]
      exact ih _ _ _
    | some cb =>
      rw [notifyLoop_succ_some beh n k st log cb hq, ih, applyLAct_currentState]

theorem notifyLoop_out {σ : Type} (beh : Nat → LAct) :
    ∀ (n k : Nat) (st : Store σ) (log : List Nat),
      st.listeners.length ≤ k → notifyLoop beh n k st log = (st, log) := by
  intro n
  induction n with
  | zero => intro k st log _; rfl
  | succ n ih =>
    intro k st log hk
    have hq : st.listeners[k]? = Option.none := List.getElem?_eq_none hk
    rw [notifyLoop_succ_none beh n k st log hq]
    exact ih (k + 1) st log (by omega)

theorem notifyLoop_none_seg {σ : Type} (beh : Nat → LAct) :
    ∀ (n k : Nat) (st : Store σ) (log : List Nat),
      (∀ x ∈ (st.listeners.drop k).take n, beh x = LAct.none) →
      notifyLoop beh n k st log = (st, log ++ (st.listeners.drop k).take n) := by
  intro n
  induction n with
  | zero => intro k st log _; simp [notifyLoop]
  | succ n ih =>
    intro k st log hbeh
    by_cases hk : k < st.listeners.length
    · have hdrop : st.listeners.drop k = st.listeners[k] :: st.listeners.drop (k + 1) :=
        (List.cons_getElem_drop_succ (h := hk)).symm
      have htake : (st.listeners.drop k).take (n + 1) =
          st.listeners[k] :: (st.listeners.drop (k + 1)).take n := by
        rw [hdrop, List.take_succ_cons]
      have hx : beh st.listeners[k] = LAct.none := by
        apply hbeh
        rw [htake]
        exact List.mem_cons_self _ _
      have hrest : ∀ x ∈ (st.listeners.drop (k + 1)).take n, beh x = LAct.none := by
        intro x hxm
        apply hbeh
        rw [htake]
        exact List.mem_cons_of_mem _ hxm
      have hq : st.listeners[k]? = some st.listeners[k] := List.getElem?_eq_getElem hk
      rw [notifyLoop_succ_some beh n k st log _ hq, hx]
      show notifyLoop beh n (k + 1) st (log ++ [st.listeners[k]]) = _
      rw [ih (k + 1) st (log ++ [st.listeners[k]]) hrest, htake]
      simp
    · have hlen : st.listeners.length ≤ k := by omega
      have hnil : st.listeners.drop k = [] := List.drop_eq_nil_of_le hlen
      rw [hnil]
      simp only [List.take_nil, List.append_nil]
      have hq : st.listeners[k]? = Option.none := List.getElem?_eq_none hlen
      rw [notifyLoop_succ_none beh n k st log hq]
      exact notifyLoop_out beh n (k + 1) st log (by omega)

theorem notifyLoop_add {σ : Type} (beh : Nat → LAct) :
    ∀ (m n k : Nat) (st : Store σ) (log : List Nat),
      notifyLoop beh (m + n) k st log =
        notifyLoop beh n (k + m) (notifyLoop beh m k st log).1
          (notifyLoop beh m k st log).2 := by
  intro m
  induction m with
  | zero => intro n k st log; simp [notifyLoop]
  | succ m ih =>
    intro n k st log
    have hsucc : m + 1 + n = (m + n) + 1 := by omega
    have hk1 : k + (m + 1) = (k + 1) + m := by omega
    rw [hsucc, hk1]
    cases hq : st.listeners[k]? with
    | none =>
      rw [notifyLoop_succ_none beh (m + n) k st log hq,
        notifyLoop_succ_none beh m k st log hq]
      exact ih n (k + 1) _ _
    | some cb =>
      rw [notifyLoop_succ_some beh (m + n) k st log cb hq,
        notifyLoop_succ_some beh m k st log cb hq]
      exact ih n (k + 1) _ _

theorem subscribeAll_listeners {σ : Type} :
    ∀ (cbs : List Nat) (st : Store σ),
      (subscribeAll st cbs).listeners = st.listeners ++ cbs := by
  intro cbs
  induction cbs with
  | nil => intro st; simp [subscribeAll]
  | cons c rest ih =>
    intro st
    show (subscribeAll (subscribe st c).1 rest).listeners = _
    rw [ih]
    simp [subscribe]

theorem jsIndexOf_append_cons (A B : List Nat) (c : Nat) (hc : c ∉ A) :
    jsIndexOf (A ++ c :: B) c = (A.length : Int) := by
  unfold jsIndexOf
  rw [if_pos (by simp)]
  rw [List.indexOf_append_of_not_mem hc, List.indexOf_cons_self]
  simp

theorem jsSplice1_append_cons {α : Type} (A B : List α) (c : α) :
    jsSplice1 (A ++ c :: B) (A.length : Int) = A ++ B := by
  simp only [jsSplice1]
  rw [if_neg (by omega)]
  have hmin : min (A.length : Int).toNat (A ++ c :: B).length = A.length := by
    rw [Int.toNat_natCast A.length]
    simp [List.length_append]
  rw [hmin]
  have ht : (A ++ c :: B).take A.length = A := by simp
  have hd : (A ++ c :: B).drop (A.length + 1) = B := by simp
  rw [ht, hd]

theorem jsSplice1_length_of_mem (l : List Nat) (x : Nat) (hx : x ∈ l) :
    (jsSplice1 l (jsIndexOf l x)).length = l.length - 1 := by
  unfold jsIndexOf
  rw [if_pos hx]
  have hi : l.indexOf x < l.length := List.indexOf_lt_length.mpr hx
  simp only [jsSplice1]
  rw [if_neg (by omega), Int.toNat_natCast]
  simp only [List.length_append, List.length_take, List.length_drop]
  omega

theorem dispatch_currentState {σ α : Type} (reducer : σ → α → σ) (beh : Nat → LAct)
    (st : Store σ) (action : α) :
    (dispatch reducer beh st action).1.currentState = reducer st.currentState action := by
  unfold dispatch
  rw [notifyLoop_currentState]

/-- When no listener in the collection mutates anything (behaviour
`LAct.none` throughout), a dispatch invokes exactly the listeners array, in
order, and only replaces the state. -/
theorem dispatch_log_none {σ α : Type} (reducer : σ → α → σ) (beh : Nat → LAct)
    (st : Store σ) (a : α) (hbeh : ∀ c ∈ st.listeners, beh c = LAct.none) :
    dispatch reducer beh st a =
      ({ st with currentState := reducer st.currentState a }, st.listeners) := by
  unfold dispatch
  have hseg := notifyLoop_none_seg beh st.listeners.length 0
    { st with currentState := reducer st.currentState a } [] (by simpa using hbeh)
  rw [hseg]
  simp

/-- Claim C3: for every initial state, every pure transition function and
every finite sequence of dispatched actions, `getState()` after the sequence
is the left-to-right fold of the transition function over the initial state
and the actions dispatched so far (instantiating the action list at each
prefix of a longer sequence gives the state observed after each dispatch). -/
theorem C3_getState_foldl {σ α : Type} (reducer : σ → α → σ) (beh : Nat → LAct)
    (st : Store σ) (actions : List α) :
    getState (dispatchAll reducer beh st actions) =
      actions.foldl reducer (getState st) := by
  induction actions generalizing st with
  | nil => rfl
  | cons a rest ih =>
    show getState (dispatchAll reducer beh (dispatch reducer beh st a).1 rest) = _
    rw [ih, List.foldl_cons]
    have hst : getState (dispatch reducer beh st a).1 = reducer (getState st) a :=
      dispatch_currentState reducer beh st a
    rw [hst]

/-- `dispatch` for a transition function that can throw (`Except`): the state
assignment `currentState = reducer(currentState, action)` runs the reducer
first, so a throw propagates before the state is replaced and before
`listeners.forEach` starts. -/
def dispatchE {σ α ε : Type} (reducer : σ → α → Except ε σ) (beh : Nat → LAct)
    (st : Store σ) (action : α) : Except ε (Store σ × List Nat) :=
  match reducer st.currentState action with
  | Except.error e => Except.error e
  | Except.ok s1 =>
    Except.ok (notifyLoop beh st.listeners.length 0 { st with currentState := s1 } [])

/-- Claim C7: if the transition function throws during `dispatch`, the error
propagates uncaught to the caller, no new store value is produced (the
caller's store still holds the pre-dispatch state, so the transition is not
applied) and no listener is invoked (no invocation log exists). -/
theorem C7_reducerThrows {σ α ε : Type} (reducer : σ → α → Except ε σ)
    (beh : Nat → LAct) (st : Store σ) (action : α) (e : ε)
    (h : reducer st.currentState action = Except.error e) :
    dispatchE reducer beh st action = Except.error e := by
  unfold dispatchE
  rw [h]

def rThrow : Nat → Nat → Except String Nat := fun _ _ => Except.error "reducer threw"

theorem C7_witness :
    rThrow (createStore 0).currentState 0 = Except.error "reducer threw" ∧
      dispatchE rThrow (fun _ => LAct.none) (createStore 0) 0 =
        Except.error "reducer threw" :=
  ⟨rfl, C7_reducerThrows rThrow (fun _ => LAct.none) (createStore 0) 0 "reducer threw" rfl⟩

/-- Claim C8: for a store whose listeners were subscribed in the order given
by `cbs`, when no listener mutates the listener collection (every behaviour is
`LAct.none`) a single dispatch invokes each listener exactly once, in
subscription order (the invocation log is exactly `cbs`; invocations carry no
arguments by construction of the model). -/
theorem C8_notifyAll {σ α : Type} (reducer : σ → α → σ) (beh : Nat → LAct)
    (init : σ) (cbs : List Nat) (a : α)
    (hbeh : ∀ c ∈ cbs, beh c = LAct.none) :
    (dispatch reducer beh (subscribeAll (createStore init) cbs) a).2 = cbs := by
  have hl : (subscribeAll (createStore init) cbs).listeners = cbs := by
    rw [subscribeAll_listeners]
    rfl
  rw [dispatch_log_none reducer beh _ a (by rw [hl]; exact hbeh)]
  exact hl

theorem C8_witness :
    (∀ c ∈ [5, 6], (fun _ => LAct.none) c = LAct.none) ∧
      (dispatch (fun (s : Nat) _ => s) (fun _ => LAct.none)
        (subscribeAll (createStore 0) [5, 6]) 0).2 = [5, 6] :=
  ⟨by decide,
    C8_notifyAll (fun (s : Nat) _ => s) (fun _ => LAct.none) 0 [5, 6] 0 (by decide)⟩

/-- Claim C9: calling the same unsubscribe handle two or more times has the
same observable effect on the store as calling it exactly once; the second
and later calls hit the cleared `isSubscribed` flag and return without any
further change (and without error: `unsubscribe` is total). -/
theorem C9_unsubscribe_idempotent {σ : Type} (st : Store σ) (h : Handle) :
    unsubscribe (unsubscribe st h) h = unsubscribe st h ∧
      ∀ n : Nat, (fun s => unsubscribe s h)^[n + 1] st = unsubscribe st h := by
  have hidem : unsubscribe (unsubscribe st h) h = unsubscribe st h := by
    by_cases hs : h.sid ∈ st.unsubscribedSids
    · have h1 : unsubscribe st h = st := by
        unfold unsubscribe
        rw [if_pos hs]
      rw [h1, h1]
    · have h1 : unsubscribe st h =
          { st with
            unsubscribedSids := h.sid :: st.unsubscribedSids,
            listeners := jsSplice1 st.listeners (jsIndexOf st.listeners h.cb) } := by
        unfold unsubscribe
        rw [if_neg hs]
      rw [h1]
      unfold unsubscribe
      rw [if_pos (List.mem_cons_self _ _)]
  refine ⟨hidem, ?_⟩
  intro n
  induction n with
  | zero => simp
  | succ n ih =>
    rw [Function.iterate_succ_apply', ih]
    exact hidem

/-- Claim C2 (amended): invoking an unsubscribe handle for the first time
removes exactly one slot — the first occurrence (lowest index) of the
handle's callback, as found by `listeners.indexOf`.  Subscribing then
immediately unsubscribing (no dispatch in between) restores the listener
count, and restores the collection exactly (same count and order) whenever
the callback was not already registered; when duplicates of the callback
already exist, the earliest occurrence is removed rather than the newly added
registration, so the order of the remaining listeners can change. -/
theorem C2_subscribeUnsubscribe {σ : Type} (st : Store σ) (cb : Nat) (hwf : WF st) :
    ((unsubscribe (subscribe st cb).1 (subscribe st cb).2).listeners.length
        = st.listeners.length)
    ∧ (cb ∉ st.listeners →
        (unsubscribe (subscribe st cb).1 (subscribe st cb).2).listeners
          = st.listeners) := by
  have hguard : ((subscribe st cb).2).sid ∉ ((subscribe st cb).1).unsubscribedSids := by
    intro hmem
    exact absurd (hwf _ hmem) (lt_irrefl _)
  show ((unsubscribe (subscribe st cb).1 (subscribe st cb).2).listeners.length = _) ∧ _
  unfold unsubscribe
  rw [if_neg hguard]
  constructor
  · show (jsSplice1 (st.listeners ++ [cb]) (jsIndexOf (st.listeners ++ [cb]) cb)).length = _
    rw [jsSplice1_length_of_mem _ _ (by simp)]
    simp
  · intro hnin
    show jsSplice1 (st.listeners ++ [cb]) (jsIndexOf (st.listeners ++ [cb]) cb)
      = st.listeners
    rw [show st.listeners ++ [cb] = st.listeners ++ cb :: [] from rfl,
      jsIndexOf_append_cons _ _ _ hnin, jsSplice1_append_cons]
    simp

def stC2pre : Store Nat := subscribeAll (createStore 0) [1, 2]

def stC2post : Store Nat := unsubscribe (subscribe stC2pre 1).1 (subscribe stC2pre 1).2

/-- Claim C2 counterexample: starting from the listener collection `[1, 2]`
(callback 1 registered before callback 2), subscribing callback 1 a second
time and immediately invoking the handle issued for that new registration
leaves the collection `[2, 1]`: `indexOf` found the first occurrence of the
callback, so the registration removed is not the one the handle was issued
for, and the order of the remaining listeners differs from the original
`[1, 2]`. -/
theorem C2_counterexample :
    stC2pre.listeners = [1, 2] ∧ stC2post.listeners = [2, 1] := by decide

theorem C2_witness :
    WF stC2pre ∧ (5 ∉ stC2pre.listeners) ∧
      (unsubscribe (subscribe stC2pre 5).1 (subscribe stC2pre 5).2).listeners
        = stC2pre.listeners :=
  ⟨by decide, by decide, (C2_subscribeUnsubscribe stC2pre 5 (by decide)).2 (by decide)⟩

def stC1 : Store Nat := subscribeAll (createStore 0) [1, 2]

def behC1 : Nat → LAct := fun c => if c = 1 then LAct.unsub ⟨1, 0⟩ else LAct.none

/-- Claim C1 counterexample: with listeners `[1, 2]`, where listener 1's
callback invokes its own unsubscribe handle, a dispatch invokes only listener
1: listener 2, although registered before the dispatch began, is skipped,
because the self-removal shifts it to the index `forEach` has already
passed. -/
theorem C1_counterexample :
    (2 ∈ stC1.listeners) ∧
      (dispatch (fun (s : Nat) _ => s) behC1 stC1 0).2 = [1] := by decide

/-- Claim C1 (amended): if the listener collection at dispatch time is
`A ++ c :: B`, listener `c` invokes its own live unsubscribe handle during
its invocation, `c`'s callback does not occur earlier in the collection, and
every other listener leaves the store alone, then the pass invokes `A`, then
`c`, then `B` *minus its first element*: the listener immediately following
the self-unsubscriber is skipped, the later ones still run, and `c` has been
removed from the collection when the pass ends. -/
theorem C1_selfUnsubscribe {σ α : Type} (reducer : σ → α → σ) (beh : Nat → LAct)
    (st : Store σ) (a : α) (A B : List Nat) (c : Nat) (hdl : Handle)
    (hA : ∀ x ∈ A, beh x = LAct.none) (hB : ∀ x ∈ B, beh x = LAct.none)
    (hc : beh c = LAct.unsub hdl) (hcb : hdl.cb = c)
    (hsid : hdl.sid ∉ st.unsubscribedSids)
    (hl : st.listeners = A ++ c :: B) :
    (dispatch reducer beh st a).2 = A ++ c :: B.drop 1 ∧
      (dispatch reducer beh st a).1.listeners = A ++ B := by
  have hcA : c ∉ A := by
    intro hmem
    have h1 := hA c hmem
    rw [hc] at h1
    exact LAct.noConfusion h1
  have hlen : st.listeners.length = A.length + (1 + B.length) := by
    rw [hl]
    simp
    omega
  obtain ⟨st1, hst1l, hst1u, hdisp⟩ : ∃ st1 : Store σ,
      st1.listeners = A ++ c :: B ∧ st1.unsubscribedSids = st.unsubscribedSids ∧
      dispatch reducer beh st a =
        notifyLoop beh (A.length + (1 + B.length)) 0 st1 [] := by
    refine ⟨{ st with currentState := reducer st.currentState a }, hl, rfl, ?_⟩
    unfold dispatch
    rw [hlen]
  have hphase1 : notifyLoop beh A.length 0 st1 [] = (st1, A) := by
    have hvis : (st1.listeners.drop 0).take A.length = A := by
      rw [hst1l]
      simp
    rw [notifyLoop_none_seg beh A.length 0 st1 [] (by rw [hvis]; exact hA), hvis]
    simp
  have hq : st1.listeners[A.length]? = some c := by
    rw [hst1l, List.getElem?_append_right (by omega)]
    simp
  have hstep : notifyLoop beh 1 A.length st1 A =
      ({ st1 with
          unsubscribedSids := hdl.sid :: st1.unsubscribedSids,
          listeners := A ++ B }, A ++ [c]) := by
    show (match st1.listeners[A.length]? with
      | some cb =>
        notifyLoop beh 0 (A.length + 1) (applyLAct (beh cb) st1) (A ++ [cb])
      | Option.none => notifyLoop beh 0 (A.length + 1) st1 A) = _
    rw [hq]
    show (applyLAct (beh c) st1, A ++ [c]) = _
    rw [hc]
    show (unsubscribe st1 hdl, A ++ [c]) = _
    unfold unsubscribe
    rw [if_neg (by rw [hst1u]; exact hsid)]
    have hsp : jsSplice1 st1.listeners (jsIndexOf st1.listeners hdl.cb) = A ++ B := by
      rw [hcb, hst1l, jsIndexOf_append_cons A B c hcA, jsSplice1_append_cons]
    rw [hsp]
  have hphase3 : notifyLoop beh B.length (A.length + 1)
      ({ st1 with
          unsubscribedSids := hdl.sid :: st1.unsubscribedSids,
          listeners := A ++ B }) (A ++ [c]) =
      ({ st1 with
          unsubscribedSids := hdl.sid :: st1.unsubscribedSids,
          listeners := A ++ B }, A ++ c :: B.drop 1) := by
    have hvis : ((A ++ B).drop (A.length + 1)).take B.length = B.drop 1 := by
      have hdrop : (A ++ B).drop (A.length + 1) = B.drop 1 := by simp
      rw [hdrop]
      exact List.take_of_length_le (by simp)
    have hcond : ∀ x ∈ (((
        { st1 with
            unsubscribedSids := hdl.sid :: st1.unsubscribedSids,
            listeners := A ++ B } : Store σ).listeners.drop (A.length + 1)).take B.length),
        beh x = LAct.none := by
      intro x hx
      rw [show ({ st1 with
          unsubscribedSids := hdl.sid :: st1.unsubscribedSids,
          listeners := A ++ B } : Store σ).listeners = A ++ B from rfl, hvis] at hx
      exact hB x (List.mem_of_mem_drop hx)
    rw [notifyLoop_none_seg beh B.length (A.length + 1) _ (A ++ [c]) hcond]
    rw [show ({ st1 with
        unsubscribedSids := hdl.sid :: st1.unsubscribedSids,
        listeners := A ++ B } : Store σ).listeners = A ++ B from rfl, hvis]
    simp
  have hrun : dispatch reducer beh st a =
      ({ st1 with
          unsubscribedSids := hdl.sid :: st1.unsubscribedSids,
          listeners := A ++ B }, A ++ c :: B.drop 1) := by
    rw [hdisp, notifyLoop_add beh A.length (1 + B.length) 0 st1 [], hphase1]
    show notifyLoop beh (1 + B.length) (0 + A.length) st1 A = _
    rw [Nat.zero_add, notifyLoop_add beh 1 B.length A.length st1 A, hstep]
    show notifyLoop beh B.length (A.length + 1)
      ({ st1 with
          unsubscribedSids := hdl.sid :: st1.unsubscribedSids,
          listeners := A ++ B }) (A ++ [c]) = _
    exact hphase3
  rw [hrun]
  exact ⟨rfl, rfl⟩

def stC1w : Store Nat := subscribeAll (createStore 0) [1, 2, 3, 4]

def behC1w : Nat → LAct := fun c => if c = 2 then LAct.unsub ⟨2, 1⟩ else LAct.none

theorem C1_witness :
    (dispatch (fun (s : Nat) _ => s) behC1w stC1w 0).2 = [1] ++ 2 :: [3, 4].drop 1 ∧
      (dispatch (fun (s : Nat) _ => s) behC1w stC1w 0).1.listeners = [1] ++ [3, 4] :=
  C1_selfUnsubscribe (fun (s : Nat) _ => s) behC1w stC1w 0 [1] [3, 4] 2 ⟨2, 1⟩
    (by decide) (by decide) (by decide) (by decide) (by decide) (by decide)

/-- When no callback's behaviour removes a listener, the array only ever
grows during a pass, so the elements visited at indices `k, …, k+n-1` are
exactly those the array held there when the pass began. -/
theorem notifyLoop_no_unsub {σ : Type} (beh : Nat → LAct)
    (hbeh : ∀ c hdl, beh c ≠ LAct.unsub hdl) :
    ∀ (n k : Nat) (st : Store σ) (log : List Nat),
      k + n ≤ st.listeners.length →
      (notifyLoop beh n k st log).2 = log ++ (st.listeners.drop k).take n := by
  intro n
  induction n with
  | zero => intro k st log _; simp [notifyLoop]
  | succ n ih =>
    intro k st log hkn
    have hk : k < st.listeners.length := by omega
    have hq : st.listeners[k]? = some st.listeners[k] := List.getElem?_eq_getElem hk
    rw [notifyLoop_succ_some beh n k st log _ hq]
    obtain ⟨t, ht⟩ : ∃ tl : List Nat,
        (applyLAct (beh st.listeners[k]) st).listeners = st.listeners ++ tl := by
      cases hbc : beh st.listeners[k] with
      | none => exact ⟨[], by simp [applyLAct]⟩
      | unsub hdl => exact absurd hbc (hbeh _ _)
      | sub d => exact ⟨[d], by simp [applyLAct, subscribe]⟩
    rw [ih (k + 1) _ (log ++ [st.listeners[k]]) (by rw [ht]; simp; omega)]
    have hdt : (((applyLAct (beh st.listeners[k]) st).listeners.drop (k + 1)).take n)
        = (st.listeners.drop (k + 1)).take n := by
      rw [ht, List.drop_append_of_le_length (by omega),
        List.take_append_of_le_length (by simp; omega)]
    rw [hdt]
    have hcons : (st.listeners.drop k).take (n + 1)
        = st.listeners[k] :: (st.listeners.drop (k + 1)).take n := by
      rw [show st.listeners.drop k = st.listeners[k] :: st.listeners.drop (k + 1) from
        (List.cons_getElem_drop_succ (h := hk)).symm, List.take_succ_cons]
    rw [hcons]
    simp

def stC10 : Store Nat := subscribeAll (createStore 0) [1, 2, 3]

def behC10 : Nat → LAct := fun c =>
  if c = 1 then LAct.unsub ⟨2, 1⟩ else if c = 3 then LAct.sub 4 else LAct.none

/-- Claim C10 counterexample: with listeners `[1, 2, 3]`, where listener 1
unsubscribes listener 2 and listener 3 subscribes a new callback 4 during the
pass, the earlier removal shifts the freshly subscribed callback 4 inside the
range `forEach` still visits, so callback 4 — registered only during this
pass — IS invoked in the same pass (invocation log `[1, 3, 4]`). -/
theorem C10_counterexample :
    (4 ∉ stC10.listeners) ∧
      (dispatch (fun (s : Nat) _ => s) behC10 stC10 0).2 = [1, 3, 4] := by decide

/-- Claim C10 (amended): as long as no listener unsubscribes during the pass
(behaviours only leave the store alone or subscribe new callbacks), a
dispatch invokes exactly the listeners present when notification began, in
order — so a listener subscribed from within a callback during the pass is
not invoked in that same pass, only by subsequent dispatches.  (If a removal
happens earlier in the same pass, a freshly subscribed listener can shift
into the visited range and be invoked, as the counterexample shows.) -/
theorem C10_noUnsub {σ α : Type} (reducer : σ → α → σ) (beh : Nat → LAct)
    (st : Store σ) (a : α)
    (hbeh : ∀ c hdl, beh c ≠ LAct.unsub hdl) :
    (dispatch reducer beh st a).2 = st.listeners := by
  unfold dispatch
  rw [notifyLoop_no_unsub beh hbeh st.listeners.length 0 _ [] (by simp)]
  simp

def stC10w : Store Nat := subscribeAll (createStore 0) [7, 8]

def behC10w : Nat → LAct := fun c => if c = 7 then LAct.sub 9 else LAct.none

theorem C10_witness :
    (dispatch (fun (s : Nat) _ => s) behC10w stC10w 0).2 = stC10w.listeners :=
  C10_noUnsub (fun (s : Nat) _ => s) behC10w stC10w 0
    (by intro c hdl; unfold behC10w; split <;> intro hcon <;> exact LAct.noConfusion hcon)

/-- A JS props object, as the partial map from keys to prop values. -/
def Props (V : Type) : Type :=
  String → Option V

/-- The JSX double spread `<Component {...a} {...b} />`: the props the view
receives are the keys of `a` and `b`, with `b` (spread later) overriding `a`
on overlapping keys. -/
def spread {V : Type} (a b : Props V) : Props V :=
  fun k =>
    match b k with
    | some v => some v
    | Option.none => a k

/-- What rendering a connected consumer can fail with: the low-level
TypeError raised by a property access on `undefined` (carrying the property
name), or a descriptive MissingScope-class error (which this code never
raises). -/
inductive RenderErr where
  | undefinedAccess : String → RenderErr
  | missingScope : String → RenderErr
deriving DecidableEq, Repr

def RenderErr.isMissingScopeErr : RenderErr → Bool
  | RenderErr.undefinedAccess _ => false
  | RenderErr.missingScope _ => true

def errOf {β : Type} : Except RenderErr β → Option RenderErr
  | Except.error e => some e
  | Except.ok _ => Option.none

def okProps {V : Type} : Except RenderErr (Props V) → Props V
  | Except.ok p => p
  | Except.error _ => fun _ => Option.none

/-- The `render` method of the consumer produced by
`connect(mapStateToProps, mapDispatchToProps)(Component)`: it evaluates
`this.context.store` (`ctxStore`; `Option.none` when no enclosing provider
put a store in context), reads `getState`/`dispatch` off it — which throws
the low-level undefined-access TypeError when the store is `undefined` — and
otherwise renders the wrapped view with the `mapStateToProps` fragment spread
first and the `mapDispatchToProps` fragment spread after it.  `this.props`
(`ownProps`) is passed to both mapping functions but is not itself spread
onto the view.  The dispatch capability handed to `mapDispatchToProps` is
abstracted as `dispatchCap store`. -/
def connectRender {σ V D : Type} (ctxStore : Option (Store σ))
    (dispatchCap : Store σ → D)
    (mapStateToProps : σ → Props V → Props V)
    (mapDispatchToProps : D → Props V → Props V)
    (ownProps : Props V) : Except RenderErr (Props V) :=
  match ctxStore with
  | Option.none => Except.error (RenderErr.undefinedAccess "getState")
  | some store =>
    Except.ok (spread (mapStateToProps (getState store) ownProps)
      (mapDispatchToProps (dispatchCap store) ownProps))

def ownPropsX : Props Nat :=
  fun k => if k = "title" then some 1 else Option.none

/-- Claim C4 counterexample: rendering a connected consumer with no enclosing
provider produces the low-level undefined-access error (reading `getState`
off the undefined context store), which is not a MissingScope-class error —
contradicting the claim that render fails with a descriptive
MissingScope-class error rather than a lower-level null/undefined-access
error. -/
theorem C4_counterexample :
    connectRender (σ := Nat) (V := Nat) (D := Unit) Option.none (fun _ => ())
        (fun _ p => p) (fun _ p => p) ownPropsX
      = Except.error (RenderErr.undefinedAccess "getState") ∧
      (RenderErr.undefinedAccess "getState").isMissingScopeErr = false :=
  ⟨rfl, rfl⟩

/-- Claim C4 (amended): rendering a connected consumer with no enclosing
Scope Provider always fails with the low-level undefined-access error raised
by reading `getState` off the undefined `this.context.store`; no descriptive
MissingScope-class error is ever produced (there is no such check in the
code). -/
theorem C4_missingProvider {σ V D : Type} (dispatchCap : Store σ → D)
    (mapStateToProps : σ → Props V → Props V)
    (mapDispatchToProps : D → Props V → Props V) (ownProps : Props V) :
    connectRender Option.none dispatchCap mapStateToProps mapDispatchToProps ownProps
        = Except.error (RenderErr.undefinedAccess "getState") ∧
      (errOf (connectRender Option.none dispatchCap mapStateToProps
          mapDispatchToProps ownProps)).map RenderErr.isMissingScopeErr
        = some false :=
  ⟨rfl, rfl⟩

def storeC6 : Store Nat := createStore 0

/-- Claim C6 counterexample: with own props holding `title ↦ 1` and both
mapping functions returning empty fragments, the wrapped view's props lack
the `title` key entirely — the consumer's own props are not merged into the
view's props, contradicting the claim that the view receives its own props
merged with the derived props. -/
theorem C6_counterexample :
    ownPropsX "title" = some 1 ∧
      okProps (connectRender (some storeC6) (fun _ => ())
          (fun _ _ => fun _ => Option.none) (fun _ _ => fun _ => Option.none)
          ownPropsX) "title"
        = Option.none := by
  constructor
  · decide
  · rfl

/-- Claim C6 (amended): on every render with a store in scope, the wrapped
view receives exactly the derived props — at each key, the
`mapDispatchToProps` fragment's value if it defines the key (spread after,
so it takes precedence), otherwise the `mapStateToProps` fragment's value;
the consumer's own props are only arguments to the two mapping functions and
are not themselves spread onto the view. -/
theorem C6_derivedProps {σ V D : Type} (store : Store σ) (dispatchCap : Store σ → D)
    (mapStateToProps : σ → Props V → Props V)
    (mapDispatchToProps : D → Props V → Props V)
    (ownProps : Props V) (k : String) :
    okProps (connectRender (some store) dispatchCap mapStateToProps
        mapDispatchToProps ownProps) k
      = (match mapDispatchToProps (dispatchCap store) ownProps k with
        | some v => some v
        | Option.none => mapStateToProps (getState store) ownProps k) := rfl

def ADD_TODO : String := "ADD_TODO"

/-- The sample app's action shape: a type tag and a payload. -/
structure Action0 where
  type : String
  payload : String
deriving DecidableEq, Repr

/-- A JS array value with its heap reference made explicit: `addr` is the
object's identity, `elems` its contents. -/
structure JsArr where
  addr : Nat
  elems : List String
deriving DecidableEq, Repr

/-- The sample `reducer` of the app, with JS reference identity modelled by
pairing the state with an allocation counter (the next free address): the
array literal `[...state, action.payload]` in the `ADD_TODO` case allocates
a fresh array object, while the `default` case returns the incoming array
reference itself, unchanged. -/
def reducerA (s : Nat × JsArr) (action : Action0) : Nat × JsArr :=
  if action.type = ADD_TODO then
    (s.1 + 1, ⟨s.1, s.2.elems ++ [action.payload]⟩)
  else
    s

def storeC5 : Store (Nat × JsArr) := createStore (1, ⟨0, []⟩)

/-- Claim C5 counterexample: dispatching an action whose type the sample
transition function does not recognize makes the reducer's `default` case
return the previous state reference itself, so the array reference returned
by `getState` after the dispatch is the same reference as before it —
contradicting "the state reference returned by getState() before a dispatch
is never the same reference as the one returned after that dispatch". -/
theorem C5_counterexample :
    (getState (dispatch reducerA (fun _ => LAct.none) storeC5
        ⟨"SOMETHING_ELSE", ""⟩).1).2.addr = (getState storeC5).2.addr := by decide

/-- Claim C5 (amended): the state's reference identity changes on a dispatch
whose action the transition function recognizes — the `ADD_TODO` case
allocates a fresh array even when the result is deeply equal to the previous
state — but a dispatch with an unrecognized action type returns the very
same state reference, leaving the identity unchanged.  (The hypothesis is
the allocator invariant: the live array's address was allocated before the
counter's current value.) -/
theorem C5_identity (beh : Nat → LAct) (st : Store (Nat × JsArr)) (p : String)
    (hfresh : (getState st).2.addr < (getState st).1) (t q : String)
    (ht : t ≠ ADD_TODO) :
    (getState (dispatch reducerA beh st ⟨ADD_TODO, p⟩).1).2.addr
        ≠ (getState st).2.addr ∧
      (getState (dispatch reducerA beh st ⟨t, q⟩).1).2 = (getState st).2 := by
  constructor
  · show (dispatch reducerA beh st ⟨ADD_TODO, p⟩).1.currentState.2.addr
      ≠ st.currentState.2.addr
    rw [dispatch_currentState]
    simp only [reducerA, if_pos rfl]
    exact fun hcontra => absurd (hcontra ▸ hfresh) (lt_irrefl _)
  · show (dispatch reducerA beh st ⟨t, q⟩).1.currentState.2 = st.currentState.2
    rw [dispatch_currentState]
    simp [reducerA, ht]

theorem C5_witness :
    ((getState storeC5).2.addr < (getState storeC5).1) ∧ ("X" ≠ ADD_TODO) ∧
      ((getState (dispatch reducerA (fun _ => LAct.none) storeC5
            ⟨ADD_TODO, "a"⟩).1).2.addr ≠ (getState storeC5).2.addr ∧
        (getState (dispatch reducerA (fun _ => LAct.none) storeC5
            ⟨"X", "b"⟩).1).2 = (getState storeC5).2) :=
  ⟨by decide, by decide,
    C5_identity (fun _ => LAct.none) storeC5 "a" (by decide) "X" "b" (by decide)⟩
